import Mathlib

/-!
Shallow embedding of the WittyWisterias storage / message-protocol core
(`src/witty_wisterias/backend/{message_format,backend,cryptography,database}.py`
and the reconciliation loop in `frontend/states/chat_state.py`).

Python strings are modelled by the inductive `PStr`: ordinary text is
`PStr.raw s`; the outputs of the cryptographic primitives (base64-encoded
NaCl box ciphertexts, signed blobs and 32-byte keys) are tracked
symbolically by dedicated constructors, since the code never inspects
their characters, only passes them back into the library.  JSON
serialization (`json.dumps` / `json.loads`) is modelled as a constructor
pairing: a string produced by `json.dumps` of a message dict is
`EntryStr.dump j`, and `json.loads` is its (partial) inverse; a string
that is not valid JSON is `EntryStr.plain p`.  `base64`/`zlib` at the
state-codec level are a bijective pair, so the wire blob is modelled by
the JSON structure it carries (`Wire.blob`), with `Wire.empty` for the
empty string that `Backend.decode` special-cases.

Python exceptions are modelled by `PyExc`; the class hierarchy fact that
matters to the code (which exceptions are caught by `except ValueError`)
is recorded by `PyExc.isValueError`.
-/

/-- Model of a Python `str` as used by this program: ordinary text, plus
symbolic constructors for the base64-encoded outputs of the NaCl
primitives (ciphertext of a box with derived shared key `k`, signed blob
under signing key `k`, and a bare 32-byte key). -/
inductive PStr where
  /-- Ordinary text (not valid base64 of any key material, not valid JSON). -/
  | raw (s : String)
  /-- base64 of a NaCl `Box` ciphertext whose box shared key is `k`. -/
  | sealed (k : Nat) (m : PStr)
  /-- base64 of a NaCl signed message under signing key `k`. -/
  | signedBy (k : Nat) (m : PStr)
  /-- base64 of a 32-byte NaCl key with scalar `k`. -/
  | keyStr (k : Nat)
deriving DecidableEq, Repr

/-- Python truthiness of a string: only the empty string is falsy.
The symbolic constructors all denote nonempty base64 text. -/
def PStr.isTruthy : PStr → Bool
  | .raw s => !s.isEmpty
  | _ => true

/-- Model of the Python exceptions this code raises or catches.  One
constructor per relevant class. -/
inductive PyExc where
  /-- builtin `ValueError` (also covers `binascii.Error` and
  `UnicodeDecodeError`, which subclass it). -/
  | valueError
  /-- `nacl.exceptions.CryptoError`; subclasses only `Exception`,
  not `ValueError`. -/
  | cryptoError
  /-- `nacl.exceptions.TypeError` / builtin `TypeError`. -/
  | typeError
  /-- builtin `KeyError` (failed `dict`/`Enum` indexing). -/
  | keyError
  /-- `json.JSONDecodeError` (subclasses `ValueError`). -/
  | jsonDecodeError
  /-- builtin `AttributeError` (e.g. `None.name`). -/
  | attributeError
  /-- `backend.exceptions.InvalidDataError` (subclasses `Exception`);
  the spec's error taxonomy calls this failure `IncompleteMessage`. -/
  | invalidDataError
deriving DecidableEq, Repr

/-- Whether `except ValueError` catches this exception, i.e. whether the
Python class is a subclass of builtin `ValueError`. -/
def PyExc.isValueError : PyExc → Bool
  | .valueError => true
  | .jsonDecodeError => true
  | _ => false

/-- `EventType` enum from `message_format.py`. -/
inductive EventType where
  | PUBLIC_TEXT
  | PUBLIC_IMAGE
  | PRIVATE_TEXT
  | PRIVATE_IMAGE
deriving DecidableEq, Repr

/-- `EventType.name` of the enum member. -/
def EventType.name : EventType → String
  | .PUBLIC_TEXT => "PUBLIC_TEXT"
  | .PUBLIC_IMAGE => "PUBLIC_IMAGE"
  | .PRIVATE_TEXT => "PRIVATE_TEXT"
  | .PRIVATE_IMAGE => "PRIVATE_IMAGE"

/-- `EventType[s]`: look an enum member up by name; `none` models the
`KeyError` on an unknown name. -/
def EventType.fromName : String → Option EventType
  | "PUBLIC_TEXT" => some .PUBLIC_TEXT
  | "PUBLIC_IMAGE" => some .PUBLIC_IMAGE
  | "PRIVATE_TEXT" => some .PRIVATE_TEXT
  | "PRIVATE_IMAGE" => some .PRIVATE_IMAGE
  | _ => none

/-- `ExtraEventInfo` dataclass: both fields default to `None`. -/
structure ExtraEventInfo where
  user_name : Option PStr := none
  user_image : Option PStr := none
deriving DecidableEq, Repr

/-- `MessageFormat` dataclass.  `event_type` is declared `EventType` in
Python but, being an object reference, can be `None` at runtime (the
completeness checks in `Backend.send_*` test its truthiness), hence
`Option EventType` here.  Timestamps are modelled as integers: none of
the modelled code does arithmetic on them, only equality/ordering. -/
structure MessageFormat where
  sender_id : PStr
  event_type : Option EventType
  content : PStr
  timestamp : Int
  sender_username : PStr := .raw ""
  sender_profile_image : PStr := .raw ""
  receiver_id : PStr := .raw "None"
  signing_key : PStr := .raw ""
  verify_key : PStr := .raw ""
  own_public_key : PStr := .raw ""
  receiver_public_key : PStr := .raw ""
  private_key : PStr := .raw ""
  extra_event_info : ExtraEventInfo := {}
deriving DecidableEq, Repr

/-- The dict built by `MessageFormat.to_dict` (flattened: the fixed
`header`/`body` nesting is implicit in the field names).  `Option`
fields are `null` in JSON when `none`. -/
structure MessageFormatJson where
  sender_id : PStr
  receiver_id : PStr
  event_type_name : PStr
  timestamp : Int
  signing_key : PStr
  verify_key : PStr
  own_public_key : PStr
  private_key : PStr
  receiver_public_key : PStr
  content : PStr
  eei_user_name : Option PStr
  eei_user_image : Option PStr
deriving DecidableEq, Repr

/-- A Python list comprehension `[f(x) for x in xs]` whose body can
raise: the first exception aborts the whole comprehension. -/
def mapComp {α β ε : Type} (f : α → Except ε β) : List α → Except ε (List β)
  | [] => .ok []
  | a :: l =>
    match f a with
    | .error e => .error e
    | .ok b =>
      match mapComp f l with
      | .error e => .error e
      | .ok bs => .ok (b :: bs)

/-- A Python string that `message_stack` may hold at the JSON level:
either `json.dumps` of a `MessageFormat.to_dict` dict, or some other
string on which `json.loads` fails. -/
inductive EntryStr where
  | plain (p : PStr)
  | dump (j : MessageFormatJson)
deriving DecidableEq, Repr

/-- `MessageFormat.to_dict`.  Fails (with `AttributeError`, from
`self.event_type.name`) when `event_type` is `None`. -/
def MessageFormat.to_dict (m : MessageFormat) : Except PyExc MessageFormatJson :=
  match m.event_type with
  | none => .error .attributeError
  | some et => .ok
      { sender_id := m.sender_id
        receiver_id := m.receiver_id
        event_type_name := .raw et.name
        timestamp := m.timestamp
        signing_key := m.signing_key
        verify_key := m.verify_key
        own_public_key := m.own_public_key
        private_key := m.private_key
        receiver_public_key := m.receiver_public_key
        content := m.content
        eei_user_name := m.extra_event_info.user_name
        eei_user_image := m.extra_event_info.user_image }

/-- `MessageFormat.to_json`: `json.dumps(self.to_dict())`. -/
def MessageFormat.to_json (m : MessageFormat) : Except PyExc EntryStr :=
  (m.to_dict).map EntryStr.dump

/-- `MessageFormat.from_json`: `json.loads` then field extraction.
A non-JSON string fails with `JSONDecodeError`; an unknown
`event_type` name fails with `KeyError` (from `EventType[...]`).
Note the source does not restore `sender_username` /
`sender_profile_image` (they are not serialized by `to_dict`), so they
take their dataclass defaults. -/
def MessageFormat.from_json : EntryStr → Except PyExc MessageFormat
  | .plain _ => .error .jsonDecodeError
  | .dump j =>
    match j.event_type_name with
    | .raw s =>
      match EventType.fromName s with
      | none => .error .keyError
      | some et => .ok
          { sender_id := j.sender_id
            receiver_id := j.receiver_id
            event_type := some et
            signing_key := j.signing_key
            verify_key := j.verify_key
            own_public_key := j.own_public_key
            receiver_public_key := j.receiver_public_key
            private_key := j.private_key
            timestamp := j.timestamp
            content := j.content
            extra_event_info :=
              { user_name := j.eei_user_name, user_image := j.eei_user_image } }
    | _ => .error .keyError

/-- An element of the `message_stack` JSON array inside the wire blob:
a string, or a malformed non-string entry (represented by a JSON
number, which `isinstance(message, str)` filters out). -/
inductive JEntry where
  | estr (e : EntryStr)
  | jnum (n : Int)
deriving DecidableEq, Repr

/-- The four-field JSON structure of the wire blob (section 6 of the
spec): three string-to-string maps (Python dicts, modelled as ordered
association lists with unique keys, matching insertion order) and the
`message_stack` array. -/
structure UploadStackJson where
  profile_image_stack : List (PStr × PStr)
  verify_keys_stack : List (PStr × PStr)
  public_keys_stack : List (PStr × PStr)
  message_stack : List JEntry
deriving DecidableEq, Repr

/-- The wire string `Backend.encode` produces and `Backend.decode`
consumes: the empty string, or `base64(zlib(json.dumps(...)))` of an
`UploadStackJson` (base64 and zlib are a bijective pair, so the blob is
identified with the JSON structure it carries). -/
inductive Wire where
  | empty
  | blob (v : UploadStackJson)
deriving DecidableEq, Repr

/-- An in-memory element of `UploadStack.message_stack`, whose Python
type is `list[MessageFormat | str]`. -/
inductive StackEntry where
  | mf (m : MessageFormat)
  | str (e : EntryStr)
deriving DecidableEq, Repr

/-- The `UploadStack` dataclass from `backend.py`. -/
structure UploadStack where
  profile_image_stack : List (PStr × PStr) := []
  verify_keys_stack : List (PStr × PStr) := []
  public_keys_stack : List (PStr × PStr) := []
  message_stack : List StackEntry := []
deriving DecidableEq, Repr

/-- The string entries of a JSON `message_stack` array, in order
(the `isinstance(message, str)` filter in `UploadStack.from_json`). -/
def stringEntries (ms : List JEntry) : List EntryStr :=
  ms.filterMap fun e =>
    match e with
    | .estr s => some s
    | .jnum _ => none

/-- `UploadStack.from_json`: keep the string entries of `message_stack`
and parse each with `MessageFormat.from_json`.  The comprehension has no
exception handling, so the first entry that fails to parse fails the
whole call. -/
def UploadStack.from_json (v : UploadStackJson) : Except PyExc UploadStack :=
  match mapComp MessageFormat.from_json (stringEntries v.message_stack) with
  | .error e => .error e
  | .ok msgs => .ok
      { profile_image_stack := v.profile_image_stack
        verify_keys_stack := v.verify_keys_stack
        public_keys_stack := v.public_keys_stack
        message_stack := msgs.map StackEntry.mf }

namespace Backend

/-- `Backend.decode`: the empty string yields an empty `UploadStack`;
otherwise base64-decode, inflate, and parse with
`UploadStack.from_json`. -/
def decode : Wire → Except PyExc UploadStack
  | .empty => .ok {}
  | .blob v => UploadStack.from_json v

/-- The `MessageFormat` entries of an in-memory `message_stack`
(the `isinstance(message, MessageFormat)` filter in `Backend.encode`). -/
def mfEntries (ms : List StackEntry) : List MessageFormat :=
  ms.filterMap fun e =>
    match e with
    | .mf m => some m
    | .str _ => none

/-- `Backend.encode`.  First the in-place mutation
`upload_stack.message_stack = [message.to_json() for message in upload_stack.message_stack if isinstance(message, MessageFormat)]`,
then `base64.b64encode(zlib.compress(json.dumps(asdict(upload_stack))))`.
The returned pair is (the argument object after the mutation, the wire
blob); `asdict` of the mutated stack — whose entries are all strings —
is exactly the four-field JSON record built here.  If some `to_json`
call raises, the exception propagates before the assignment happens. -/
def encode (u : UploadStack) : Except PyExc (UploadStack × Wire) :=
  match mapComp MessageFormat.to_json (mfEntries u.message_stack) with
  | .error e => .error e
  | .ok js =>
      .ok ({ u with message_stack := js.map StackEntry.str },
        .blob
          { profile_image_stack := u.profile_image_stack
            verify_keys_stack := u.verify_keys_stack
            public_keys_stack := u.public_keys_stack
            message_stack := js.map JEntry.estr })

end Backend

namespace Cryptography

/-- Symbolic model of the X25519 key derivation used by `nacl.public.Box`:
a key pair is a scalar (made positive, as clamping guarantees), the
public key carries the same scalar (standing for the curve point it
determines), and the box shared key of `Box(PrivateKey(a), PublicKey(b))`
is the product `a * b`, which gives the Diffie-Hellman identity
`shared(sk_a, pk_b) = shared(sk_b, pk_a)` and distinct shared keys for
distinct peers. -/
def boxSharedKey (sk pk : Nat) : Nat := sk * pk

/-- `Cryptography.generate_encryption_key_pair`, with the random source
made explicit as a seed: returns (base64 private key, base64 public
key). -/
def generate_encryption_key_pair (seed : Nat) : PStr × PStr :=
  (.keyStr (seed + 1), .keyStr (seed + 1))

/-- `Cryptography.encrypt_message(message, sender_private_key,
recipient_public_key)`: base64-decode both keys, build the `Box`, and
encrypt.  A key string that is not a valid 32-byte key fails inside
`PrivateKey`/`PublicKey` (modelled as `nacl.exceptions.TypeError`). -/
def encrypt_message (message sender_private_key recipient_public_key : PStr) :
    Except PyExc PStr :=
  match sender_private_key, recipient_public_key with
  | .keyStr sk, .keyStr pk => .ok (.sealed (boxSharedKey sk pk) message)
  | _, _ => .error .typeError

/-- `Cryptography.decrypt_message(encrypted_message,
recipient_private_key, sender_public_key)`: build the `Box` from the two
keys, base64-decode the ciphertext, and decrypt.  An authentication
failure in `Box.decrypt` raises `nacl.exceptions.CryptoError`, which the
function does not wrap (unlike `verify_message`, which wraps its
failures in `ValueError`).  A content string that is not valid base64
fails earlier with `binascii.Error`, a `ValueError` subclass. -/
def decrypt_message (encrypted_message recipient_private_key sender_public_key : PStr) :
    Except PyExc PStr :=
  match recipient_private_key, sender_public_key with
  | .keyStr sk, .keyStr pk =>
    match encrypted_message with
    | .sealed k m => if k = boxSharedKey sk pk then .ok m else .error .cryptoError
    | .raw _ => .error .valueError
    | _ => .error .cryptoError
  | _, _ => .error .typeError

/-- `Cryptography.sign_message(message, signing_key)`: base64-decode the
signing key, sign, base64-encode.  A signing-key string that is not a
valid 32-byte seed fails inside `SigningKey`. -/
def sign_message (message signing_key : PStr) : Except PyExc PStr :=
  match signing_key with
  | .keyStr sk => .ok (.signedBy sk message)
  | _ => .error .typeError

end Cryptography

/-- A network call made through `Database` (`query_data` fetches the
latest blob, `upload_data` publishes a new one). -/
inductive NetOp where
  | query
  | upload
deriving DecidableEq, Repr

/-- `if user_id not in dict: dict[user_id] = value` — the first-write-wins
key registration used throughout `Backend`; a Python dict insert places
the new key at the end. -/
def insertIfAbsent (m : List (PStr × PStr)) (k v : PStr) : List (PStr × PStr) :=
  if (m.lookup k).isSome then m else m ++ [(k, v)]

namespace Backend

/-- `Backend.push_public_keys(user_id, verify_key, public_key)` run
against a store holding `stored`: fetch-decode, insert both keys if
absent, encode-publish.  Returns the call's outcome (with the new wire
on success) and the network calls made, in order. -/
def push_public_keys (stored : Wire) (user_id verify_key public_key : PStr) :
    Except PyExc Wire × List NetOp :=
  match decode stored with
  | .error e => (.error e, [.query])
  | .ok q =>
    match encode
        { q with
          verify_keys_stack := insertIfAbsent q.verify_keys_stack user_id verify_key
          public_keys_stack := insertIfAbsent q.public_keys_stack user_id public_key } with
    | .error e => (.error e, [.query])
    | .ok (_, w) => (.ok w, [.query, .upload])

/-- The completeness check of `Backend.send_public_message`:
`message.sender_id and message.event_type and message.content and message.signing_key`. -/
def publicComplete (m : MessageFormat) : Bool :=
  m.sender_id.isTruthy && m.event_type.isSome && m.content.isTruthy
    && m.signing_key.isTruthy

/-- `Backend.send_public_message(message)` run against a store holding
`stored`.  On an incomplete message it raises `InvalidDataError`
("MessageFormat is not complete") before any network call; otherwise it
fetch-decodes, registers the sender's verify key if absent, signs the
content, appends the stripped-down public `MessageFormat`, and
encode-publishes. -/
def send_public_message (stored : Wire) (m : MessageFormat) :
    Except PyExc Wire × List NetOp :=
  if !publicComplete m then (.error .invalidDataError, [])
  else
    match decode stored with
    | .error e => (.error e, [.query])
    | .ok q =>
      match Cryptography.sign_message m.content m.signing_key with
      | .error e => (.error e, [.query])
      | .ok signed =>
        match encode
            { q with
              verify_keys_stack := insertIfAbsent q.verify_keys_stack m.sender_id m.verify_key
              message_stack := q.message_stack ++ [.mf
                { sender_id := m.sender_id
                  event_type := m.event_type
                  content := signed
                  timestamp := m.timestamp
                  extra_event_info :=
                    { user_name := some m.sender_username
                      user_image := some m.sender_profile_image } }] } with
        | .error e => (.error e, [.query])
        | .ok (_, w) => (.ok w, [.query, .upload])

/-- The completeness check of `Backend.send_private_message` (note that
`0.0` is a falsy timestamp). -/
def privateComplete (m : MessageFormat) : Bool :=
  m.sender_id.isTruthy && m.receiver_id.isTruthy && m.event_type.isSome
    && m.content.isTruthy && (m.timestamp != 0) && m.own_public_key.isTruthy
    && m.receiver_public_key.isTruthy && m.private_key.isTruthy

/-- `Backend.send_private_message(message)` run against a store holding
`stored`: like the public path, but registers the sender's public key,
seals the content with `(private_key, receiver_public_key)`, and keeps
`receiver_id` on the appended record. -/
def send_private_message (stored : Wire) (m : MessageFormat) :
    Except PyExc Wire × List NetOp :=
  if !privateComplete m then (.error .invalidDataError, [])
  else
    match decode stored with
    | .error e => (.error e, [.query])
    | .ok q =>
      match Cryptography.encrypt_message m.content m.private_key m.receiver_public_key with
      | .error e => (.error e, [.query])
      | .ok encrypted =>
        match encode
            { q with
              public_keys_stack := insertIfAbsent q.public_keys_stack m.sender_id m.own_public_key
              message_stack := q.message_stack ++ [.mf
                { sender_id := m.sender_id
                  receiver_id := m.receiver_id
                  event_type := m.event_type
                  content := encrypted
                  timestamp := m.timestamp
                  extra_event_info :=
                    { user_name := some m.sender_username
                      user_image := some m.sender_profile_image } }] } with
        | .error e => (.error e, [.query])
        | .ok (_, w) => (.ok w, [.query, .upload])

/-- The per-entry body of the loop in `Backend.read_private_messages`,
folded over the stack in log order with an accumulator: skip non-`str`
entries and non-private event types; for a private entry addressed to
`user_id` whose sender's public key is registered, attempt decryption;
`except ValueError: pass` drops only exceptions that are `ValueError`s —
anything else propagates and aborts the whole loop. -/
def readPrivateStep (user_id private_key : PStr) (public_keys : List (PStr × PStr))
    (acc : List MessageFormat) : StackEntry → Except PyExc (List MessageFormat)
  | .str _ => .ok acc
  | .mf msg =>
    if msg.event_type ≠ some .PRIVATE_TEXT ∧ msg.event_type ≠ some .PRIVATE_IMAGE then
      .ok acc
    else if h : msg.receiver_id = user_id ∧ (public_keys.lookup msg.sender_id).isSome then
      match Cryptography.decrypt_message msg.content private_key
          ((public_keys.lookup msg.sender_id).get h.2) with
      | .ok decrypted => .ok (acc ++ [{ msg with content := decrypted }])
      | .error e => if e.isValueError then .ok acc else .error e
    else
      .ok acc

/-- `Backend.read_private_messages(user_id, private_key)` run against a
store holding `stored`: fetch-decode, then scan the message stack in log
order collecting the entries that decrypt. -/
def read_private_messages (stored : Wire) (user_id private_key : PStr) :
    Except PyExc (List MessageFormat) :=
  match decode stored with
  | .error e => .error e
  | .ok q =>
    q.message_stack.foldlM (readPrivateStep user_id private_key q.public_keys_stack) []

end Backend

namespace Database

/-- The UTF-8 bytes of `FILE_SEARCH_TERM = "WittyWisteriasV7"` (16 ASCII
bytes), used both as the payload validation marker and the search tag. -/
def fileSearchTerm : List Nat :=
  "WittyWisteriasV7".toList.map Char.toNat

/-- `ceil(sqrt(n))` over the naturals (`math.ceil(math.sqrt(n))`). -/
def ceilSqrt (n : Nat) : Nat :=
  if Nat.sqrt n * Nat.sqrt n = n then Nat.sqrt n else Nat.sqrt n + 1

/-- `bytes.ljust(n, b"\x00")`: pad on the right with zero bytes up to
length `n` (never truncates). -/
def ljustZero (l : List Nat) (n : Nat) : List Nat :=
  l ++ List.replicate (n - l.length) 0

/-- `bytes.rstrip(b"\x00")`: drop trailing zero bytes. -/
def rstripZero (l : List Nat) : List Nat :=
  (l.reverse.dropWhile (· = 0)).reverse

/-- `Database.base64_to_image(data)` up to the lossless PNG layer: the
raw RGB raster bytes of the produced image (PNG encoding and decoding of
an RGB raster are mutually inverse, so the image is identified with its
raster).  The 8-byte random noise header is passed explicitly as
`nonce`.  Prepend marker and nonce, compute the near-square geometry
`width = ceil(sqrt(ceil(len/3)))`, `height = ceil(total_pixels/width)`,
and zero-pad to `width * height * 3` bytes. -/
def base64_to_image (nonce data : List Nat) : List Nat :=
  let validation_data := fileSearchTerm ++ nonce ++ data
  let total_pixels := (validation_data.length + 2) / 3
  let width := ceilSqrt total_pixels
  let height := (total_pixels + width - 1) / width
  ljustZero validation_data (width * height * 3)

/-- The per-image decoding step of `Database.query_data`, applied to the
raw RGB raster bytes of a fetched image: if the raster does not start
with the marker the image is not ours (`none`); otherwise strip the
marker and the 8 noise bytes and right-trim the zero padding. -/
def query_data_payload (raster : List Nat) : Option (List Nat) :=
  if fileSearchTerm.isPrefixOf raster then
    some (rstripZero (raster.drop (fileSearchTerm.length + 8)))
  else
    none

end Database

/-- The frontend `Message` dataclass from `chat_state.py` (its `message`
field holds a `str` or a decoded image; both are modelled by `PStr`). -/
structure FMessage where
  message : PStr
  user_id : PStr
  receiver_id : Option PStr
  user_name : Option PStr
  user_profile_image : Option PStr
  own_message : Bool
  is_image_message : Bool
  timestamp : Int
deriving DecidableEq, Repr

namespace ChatState

/-- The duplicate check of `ChatState.check_messages`:
`any(msg.timestamp == timestamp and msg.user_id == sender for msg in self.messages)`. -/
def messageExists (messages : List FMessage) (timestamp : Int) (sender : PStr) : Bool :=
  messages.any fun msg => msg.timestamp = timestamp && msg.user_id = sender

/-- One iteration of the public branch of the `check_messages`
reconciliation loop: append the incoming backend message (converted to a
frontend `Message`) unless an entry with the same timestamp and sender
is already present. -/
def checkPublicOne (self_user_id : PStr) (messages : List FMessage)
    (m : MessageFormat) : List FMessage :=
  if messageExists messages m.timestamp m.sender_id then messages
  else
    messages ++
      [{ message := m.content
         user_id := m.sender_id
         user_name := m.extra_event_info.user_name
         receiver_id := none
         user_profile_image := m.extra_event_info.user_image
         own_message := self_user_id = m.sender_id
         is_image_message := m.event_type = some .PUBLIC_IMAGE
         timestamp := m.timestamp }]

/-- One iteration of the private branch of the `check_messages`
reconciliation loop, acting on an already-converted frontend `Message`
from the timestamp-sorted merge of backend-decrypted and locally-stored
private messages. -/
def checkPrivateOne (messages : List FMessage) (m : FMessage) : List FMessage :=
  if messageExists messages m.timestamp m.user_id then messages
  else messages ++ [m]

end ChatState

instance {ε α : Type} [DecidableEq ε] [DecidableEq α] : DecidableEq (Except ε α) :=
  fun x y =>
    match x, y with
    | .error a, .error b =>
      if h : a = b then .isTrue (by rw [h]) else .isFalse (by simp [h])
    | .ok a, .ok b =>
      if h : a = b then .isTrue (by rw [h]) else .isFalse (by simp [h])
    | .error _, .ok _ => .isFalse (by simp)
    | .ok _, .error _ => .isFalse (by simp)

/-- The value a `MessageFormat` becomes after a serialization round
trip: `to_dict` does not serialize `sender_username` /
`sender_profile_image`, and `from_json` does not restore them, so both
revert to their dataclass defaults. -/
def MessageFormat.reparsed (m : MessageFormat) : MessageFormat :=
  { m with sender_username := .raw "", sender_profile_image := .raw "" }

/-- Well-formedness of an in-memory `message_stack` entry for the state
round trip: a `MessageFormat` value (not a string) whose `event_type` is
a genuine `EventType` and whose two unserialized fields
(`sender_username`, `sender_profile_image`) hold their defaults. -/
def wellFormedEntry : StackEntry → Bool
  | .mf m => m.event_type.isSome && m.sender_username == .raw ""
      && m.sender_profile_image == .raw ""
  | .str _ => false

/-- The stored states reachable from the empty store by (successful)
`push_public_keys`, `send_public_message` and `send_private_message`
calls. -/
inductive Reachable : Wire → Prop where
  | init : Reachable .empty
  | stepKeys (w w' : Wire) (uid vk pk : PStr) (tr : List NetOp) :
      Reachable w → Backend.push_public_keys w uid vk pk = (.ok w', tr) → Reachable w'
  | stepPub (w w' : Wire) (m : MessageFormat) (tr : List NetOp) :
      Reachable w → Backend.send_public_message w m = (.ok w', tr) → Reachable w'
  | stepPriv (w w' : Wire) (m : MessageFormat) (tr : List NetOp) :
      Reachable w → Backend.send_private_message w m = (.ok w', tr) → Reachable w'

/-- No persisted message record carries a signing key or a private key:
in the stored wire blob, the `signing_key` and `private_key` header
fields of every serialized message are the empty string. -/
def SecretFree (w : Wire) : Prop :=
  ∀ v, w = Wire.blob v → ∀ j, JEntry.estr (EntryStr.dump j) ∈ v.message_stack →
    j.signing_key = .raw "" ∧ j.private_key = .raw ""

/-- A state whose single message has a nonempty `sender_username`
("alice"): the round-trip counterexample input. -/
def exC1bad : UploadStack :=
  { message_stack := [.mf
      { sender_id := .raw "a", event_type := some .PUBLIC_TEXT, content := .raw "c",
        timestamp := 1, sender_username := .raw "alice" }] }

/-- A well-formed state: one key binding per map and one message with
default `sender_username` / `sender_profile_image`. -/
def exC1good : UploadStack :=
  { profile_image_stack := [(.raw "u", .raw "img")]
    verify_keys_stack := [(.raw "u", .keyStr 4)]
    public_keys_stack := [(.raw "u", .keyStr 5)]
    message_stack := [.mf
      { sender_id := .raw "u", event_type := some .PRIVATE_TEXT, content := .raw "c",
        timestamp := 2, receiver_id := .raw "r" }] }

/-- A stored private message whose ciphertext does not authenticate
under the reader's box (shared key 999, while the reader derives
2 * 5 = 10). -/
def exC3json : MessageFormatJson :=
  { sender_id := .raw "s", receiver_id := .raw "u",
    event_type_name := .raw "PRIVATE_TEXT", timestamp := 1,
    signing_key := .raw "", verify_key := .raw "", own_public_key := .raw "",
    private_key := .raw "", receiver_public_key := .raw "",
    content := .sealed 999 (.raw "m"),
    eei_user_name := some (.raw ""), eei_user_image := some (.raw "") }

/-- A stored state holding `exC3json` addressed to user "u", with the
sender's public key registered. -/
def exC3wire : Wire :=
  .blob
    { profile_image_stack := []
      verify_keys_stack := []
      public_keys_stack := [(.raw "s", .keyStr 5)]
      message_stack := [.estr (.dump exC3json)] }

/-- A message complete except for its `signing_key` (empty string). -/
def exC5msg : MessageFormat :=
  { sender_id := .raw "u", event_type := some .PUBLIC_TEXT, content := .raw "hi",
    timestamp := 1 }

/-- A stored state with both key maps already binding user "u". -/
def exC7stored : Wire :=
  .blob
    { profile_image_stack := []
      verify_keys_stack := [(.raw "u", .keyStr 4)]
      public_keys_stack := [(.raw "u", .keyStr 5)]
      message_stack := [] }

/-- A complete public message from "u" carrying a different verify key
than the one already registered. -/
def exC7pubMsg : MessageFormat :=
  { sender_id := .raw "u", event_type := some .PUBLIC_TEXT, content := .raw "hi",
    timestamp := 3, signing_key := .keyStr 7, verify_key := .keyStr 8 }

/-- A complete private message from "u" carrying a different public key
than the one already registered. -/
def exC7privMsg : MessageFormat :=
  { sender_id := .raw "u", event_type := some .PRIVATE_TEXT, content := .raw "hi",
    timestamp := 4, receiver_id := .raw "r", own_public_key := .keyStr 9,
    receiver_public_key := .keyStr 6, private_key := .keyStr 2 }

/-- A complete public message used to build a nonempty reachable state. -/
def exC8msg : MessageFormat :=
  { sender_id := .raw "u", event_type := some .PUBLIC_TEXT, content := .raw "hi",
    timestamp := 1, signing_key := .keyStr 3, verify_key := .keyStr 4 }

/-- The stored state after `send_public_message` of `exC8msg` against
the empty store. -/
def exC8wire : Wire :=
  .blob
    { profile_image_stack := []
      verify_keys_stack := [(.raw "u", .keyStr 4)]
      public_keys_stack := []
      message_stack := [.estr (.dump
        { sender_id := .raw "u", receiver_id := .raw "None",
          event_type_name := .raw "PUBLIC_TEXT", timestamp := 1,
          signing_key := .raw "", verify_key := .raw "", own_public_key := .raw "",
          private_key := .raw "", receiver_public_key := .raw "",
          content := .signedBy 3 (.raw "hi"),
          eei_user_name := some (.raw ""), eei_user_image := some (.raw "") })] }

/-- A local frontend message list already holding a message from "a" at
timestamp 5. -/
def exC9local : List FMessage :=
  [{ message := .raw "old", user_id := .raw "a", receiver_id := none,
     user_name := some (.raw "A"), user_profile_image := none,
     own_message := false, is_image_message := false, timestamp := 5 }]

/-- An incoming backend message duplicating (sender "a", timestamp 5). -/
def exC9incoming : MessageFormat :=
  { sender_id := .raw "a", event_type := some .PUBLIC_TEXT, content := .raw "new",
    timestamp := 5 }

/-- An incoming private-branch frontend message duplicating
(sender "a", timestamp 5). -/
def exC9fm : FMessage :=
  { message := .raw "new", user_id := .raw "a", receiver_id := some (.raw "u"),
    user_name := some (.raw "A"), user_profile_image := none,
    own_message := false, is_image_message := false, timestamp := 5 }

/-- A stack holding one `MessageFormat` and the key maps of
`exC1good`, for exercising the in-place mutation of `encode`. -/
def exC10 : UploadStack :=
  { profile_image_stack := [(.raw "u", .raw "img")]
    verify_keys_stack := [(.raw "u", .keyStr 4)]
    public_keys_stack := [(.raw "u", .keyStr 5)]
    message_stack := [.mf
      { sender_id := .raw "u", event_type := some .PUBLIC_TEXT, content := .raw "hi",
        timestamp := 1 }] }

/-- A well-formed serialized message used next to a malformed entry. -/
def exC6json : MessageFormatJson :=
  { sender_id := .raw "a", receiver_id := .raw "None",
    event_type_name := .raw "PUBLIC_TEXT", timestamp := 2,
    signing_key := .raw "", verify_key := .raw "", own_public_key := .raw "",
    private_key := .raw "", receiver_public_key := .raw "", content := .raw "c",
    eei_user_name := none, eei_user_image := none }

/-- A stored blob whose `message_stack` holds one malformed string entry
followed by one well-formed entry. -/
def exC6wire : Wire :=
  .blob
    { profile_image_stack := []
      verify_keys_stack := []
      public_keys_stack := []
      message_stack := [.estr (.plain (.raw "not json")), .estr (.dump exC6json)] }

/-- The state stored in `exC7stored`, as decoded. -/
def exC7q : UploadStack :=
  { profile_image_stack := []
    verify_keys_stack := [(.raw "u", .keyStr 4)]
    public_keys_stack := [(.raw "u", .keyStr 5)]
    message_stack := [] }

/-- The stored state after `send_public_message` of `exC7pubMsg` against
`exC7stored`: the existing verify-key binding survives. -/
def exC7pubWire : Wire :=
  .blob
    { profile_image_stack := []
      verify_keys_stack := [(.raw "u", .keyStr 4)]
      public_keys_stack := [(.raw "u", .keyStr 5)]
      message_stack := [.estr (.dump
        { sender_id := .raw "u", receiver_id := .raw "None",
          event_type_name := .raw "PUBLIC_TEXT", timestamp := 3,
          signing_key := .raw "", verify_key := .raw "", own_public_key := .raw "",
          private_key := .raw "", receiver_public_key := .raw "",
          content := .signedBy 7 (.raw "hi"),
          eei_user_name := some (.raw ""), eei_user_image := some (.raw "") })] }

/-- The stored state after `send_private_message` of `exC7privMsg`
against `exC7stored`: the existing public-key binding survives. -/
def exC7privWire : Wire :=
  .blob
    { profile_image_stack := []
      verify_keys_stack := [(.raw "u", .keyStr 4)]
      public_keys_stack := [(.raw "u", .keyStr 5)]
      message_stack := [.estr (.dump
        { sender_id := .raw "u", receiver_id := .raw "r",
          event_type_name := .raw "PRIVATE_TEXT", timestamp := 4,
          signing_key := .raw "", verify_key := .raw "", own_public_key := .raw "",
          private_key := .raw "", receiver_public_key := .raw "",
          content := .sealed 12 (.raw "hi"),
          eei_user_name := some (.raw ""), eei_user_image := some (.raw "") })] }

/-- The serialized form of the single message of `exC10`. -/
def exC10entry : EntryStr :=
  .dump
    { sender_id := .raw "u", receiver_id := .raw "None",
      event_type_name := .raw "PUBLIC_TEXT", timestamp := 1,
      signing_key := .raw "", verify_key := .raw "", own_public_key := .raw "",
      private_key := .raw "", receiver_public_key := .raw "", content := .raw "hi",
      eei_user_name := none, eei_user_image := none }

theorem EventType.fromName_name (et : EventType) : EventType.fromName et.name = some et := by
  cases et <;> rfl

/-- Parsing the serialization of a message yields the message with the
two unserialized fields reset. -/
theorem MessageFormat.from_json_to_json (m : MessageFormat) (e : EntryStr)
    (h : m.to_json = .ok e) : MessageFormat.from_json e = .ok m.reparsed := by
  cases het : m.event_type with
  | none => simp [MessageFormat.to_json, MessageFormat.to_dict, het, Except.map] at h
  | some et =>
    simp [MessageFormat.to_json, MessageFormat.to_dict, het, Except.map] at h
    subst h
    simp [MessageFormat.from_json, EventType.fromName_name, MessageFormat.reparsed, het]

theorem MessageFormat.to_json_isSome (m : MessageFormat) (e : EntryStr)
    (h : m.to_json = .ok e) : m.event_type.isSome := by
  cases het : m.event_type with
  | none => simp [MessageFormat.to_json, MessageFormat.to_dict, het, Except.map] at h
  | some et => rfl

theorem MessageFormat.to_json_of_isSome (m : MessageFormat) (h : m.event_type.isSome) :
    ∃ e, m.to_json = .ok e := by
  cases het : m.event_type with
  | none => rw [het] at h; exact absurd h (by simp)
  | some et =>
    refine ⟨.dump ⟨m.sender_id, m.receiver_id, .raw et.name, m.timestamp, m.signing_key,
      m.verify_key, m.own_public_key, m.private_key, m.receiver_public_key, m.content,
      m.extra_event_info.user_name, m.extra_event_info.user_image⟩, ?_⟩
    simp [MessageFormat.to_json, MessageFormat.to_dict, het, Except.map]

/-- Parsing links the in-memory message's secret header fields to the
serialized ones (`from_json` copies them verbatim), and parsing only
succeeds on a `json.dumps` string. -/
theorem MessageFormat.from_json_fields (e : EntryStr) (m : MessageFormat)
    (h : MessageFormat.from_json e = .ok m) :
    ∃ j, e = .dump j ∧ m.signing_key = j.signing_key ∧ m.private_key = j.private_key
      ∧ m.event_type.isSome := by
  cases e with
  | plain p => simp [MessageFormat.from_json] at h
  | dump j =>
    refine ⟨j, rfl, ?_⟩
    cases hev : j.event_type_name with
    | raw s =>
      cases hn : EventType.fromName s with
      | none => simp [MessageFormat.from_json, hev, hn] at h
      | some et =>
        simp [MessageFormat.from_json, hev, hn] at h
        subst h
        simp
    | sealed k mm => simp [MessageFormat.from_json, hev] at h
    | signedBy k mm => simp [MessageFormat.from_json, hev] at h
    | keyStr k => simp [MessageFormat.from_json, hev] at h

/-- Serialization copies the secret header fields verbatim into the
persisted record. -/
theorem MessageFormat.to_json_fields (m : MessageFormat) (e : EntryStr)
    (h : m.to_json = .ok e) :
    ∃ j, e = .dump j ∧ j.signing_key = m.signing_key ∧ j.private_key = m.private_key := by
  cases het : m.event_type with
  | none => simp [MessageFormat.to_json, MessageFormat.to_dict, het, Except.map] at h
  | some et =>
    simp [MessageFormat.to_json, MessageFormat.to_dict, het, Except.map] at h
    subst h
    exact ⟨_, rfl, rfl, rfl⟩

/-- The comprehension succeeds on a list exactly when its body succeeds
on every element; each produced element comes from some input element. -/
theorem mapComp_ok_mem {α β : Type} (f : α → Except PyExc β) :
    ∀ (xs : List α) (ys : List β), mapComp f xs = .ok ys →
      ∀ y ∈ ys, ∃ x ∈ xs, f x = .ok y := by
  intro xs
  induction xs with
  | nil => intro ys h y hy; simp [mapComp] at h; subst h; simp at hy
  | cons a l ih =>
    intro ys h y hy
    cases hfa : f a with
    | error e => simp [mapComp, hfa] at h
    | ok b =>
      cases hl : mapComp f l with
      | error e => simp [mapComp, hfa, hl] at h
      | ok bs =>
        simp [mapComp, hfa, hl] at h
        subst h
        rcases List.mem_cons.mp hy with hyb | hybs
        · exact ⟨a, List.mem_cons_self a l, by rw [hfa, hyb]⟩
        · obtain ⟨x, hx, hfx⟩ := ih bs hl y hybs
          exact ⟨x, List.mem_cons_of_mem a hx, hfx⟩

/-- Serializing a list of messages whose event types are present
succeeds, and parsing the results back yields the same messages with the
unserialized fields reset. -/
theorem mapComp_to_json_from_json (ms : List MessageFormat)
    (h : ∀ m ∈ ms, m.event_type.isSome) :
    ∃ es, mapComp MessageFormat.to_json ms = .ok es ∧
      mapComp MessageFormat.from_json es = .ok (ms.map MessageFormat.reparsed) := by
  induction ms with
  | nil => exact ⟨[], by simp [mapComp], by simp [mapComp]⟩
  | cons a l ih =>
    obtain ⟨es, hto, hfrom⟩ := ih (fun m hm => h m (List.mem_cons_of_mem a hm))
    obtain ⟨e, he⟩ := MessageFormat.to_json_of_isSome a (h a (List.mem_cons_self a l))
    refine ⟨e :: es, ?_, ?_⟩
    · simp [mapComp, he, hto]
    · simp [mapComp, MessageFormat.from_json_to_json a e he, hfrom]

theorem stringEntries_map_estr (es : List EntryStr) :
    stringEntries (es.map JEntry.estr) = es := by
  induction es with
  | nil => rfl
  | cons a l ih => simpa [stringEntries, List.filterMap_cons] using ih

theorem Backend.mem_mfEntries (l : List StackEntry) (m : MessageFormat) :
    m ∈ Backend.mfEntries l ↔ StackEntry.mf m ∈ l := by
  induction l with
  | nil => simp [Backend.mfEntries]
  | cons a t ih =>
    cases a with
    | mf m0 =>
      simp only [Backend.mfEntries, List.filterMap_cons] at *
      simp only [List.mem_cons, ih]
      constructor
      · rintro (h | h)
        · exact Or.inl (by rw [h])
        · exact Or.inr h
      · rintro (h | h)
        · exact Or.inl (by injection h)
        · exact Or.inr h
    | str e =>
      simp only [Backend.mfEntries, List.filterMap_cons] at *
      simp only [List.mem_cons, ih]
      constructor
      · exact fun h => Or.inr h
      · rintro (h | h)
        · exact absurd h (by simp)
        · exact h

/-- Composite round trip at the state level: if every `MessageFormat`
in the stack has a genuine event type, `Backend.encode` succeeds and
`Backend.decode` of the produced wire yields the key maps unchanged and
the `MessageFormat` entries reparsed, in order. -/
theorem Backend.encode_decode (u : UploadStack)
    (h : ∀ m ∈ Backend.mfEntries u.message_stack, m.event_type.isSome) :
    ∃ es : List EntryStr,
      Backend.encode u = .ok ({ u with message_stack := es.map StackEntry.str },
        .blob
          { profile_image_stack := u.profile_image_stack
            verify_keys_stack := u.verify_keys_stack
            public_keys_stack := u.public_keys_stack
            message_stack := es.map JEntry.estr }) ∧
      Backend.decode (.blob
          { profile_image_stack := u.profile_image_stack
            verify_keys_stack := u.verify_keys_stack
            public_keys_stack := u.public_keys_stack
            message_stack := es.map JEntry.estr }) = .ok
        { profile_image_stack := u.profile_image_stack
          verify_keys_stack := u.verify_keys_stack
          public_keys_stack := u.public_keys_stack
          message_stack :=
            ((Backend.mfEntries u.message_stack).map MessageFormat.reparsed).map
              StackEntry.mf } := by
  obtain ⟨es, hto, hfrom⟩ := mapComp_to_json_from_json (Backend.mfEntries u.message_stack) h
  refine ⟨es, ?_, ?_⟩
  · simp [Backend.encode, hto]
  · simp [Backend.decode, UploadStack.from_json, stringEntries_map_estr, hfrom]

theorem MessageFormat.reparsed_eq_self (m : MessageFormat)
    (h1 : m.sender_username = .raw "") (h2 : m.sender_profile_image = .raw "") :
    m.reparsed = m := by
  cases m
  simp_all [MessageFormat.reparsed]

theorem wf_stack_shape (l : List StackEntry)
    (h : ∀ en ∈ l, wellFormedEntry en = true) :
    l = (Backend.mfEntries l).map StackEntry.mf := by
  induction l with
  | nil => rfl
  | cons a t ih =>
    cases a with
    | mf m =>
      simp only [Backend.mfEntries, List.filterMap_cons] at *
      rw [List.map_cons, ← ih (fun en hen => h en (List.mem_cons_of_mem _ hen))]
    | str e => exact absurd (h _ (List.mem_cons_self _ _)) (by simp [wellFormedEntry])

/-- C1 (amended).  For every well-formed aggregate state — an
`UploadStack` whose `message_stack` contains only `MessageFormat` values
with a genuine `EventType` and with the two unserialized fields
(`sender_username`, `sender_profile_image`) at their defaults —
`Backend.decode` of the wire produced by `Backend.encode` returns the
state with exact structural equality of all four collections. -/
theorem C1_state_roundtrip (s : UploadStack)
    (h : s.message_stack.all wellFormedEntry = true) :
    ∃ s1 w, Backend.encode s = .ok (s1, w) ∧ Backend.decode w = .ok s := by
  have hall : ∀ en ∈ s.message_stack, wellFormedEntry en = true :=
    List.all_eq_true.mp h
  have hprops : ∀ m ∈ Backend.mfEntries s.message_stack,
      m.event_type.isSome ∧ m.sender_username = .raw "" ∧ m.sender_profile_image = .raw "" := by
    intro m hm
    have := hall _ ((Backend.mem_mfEntries _ _).mp hm)
    simp only [wellFormedEntry, Bool.and_eq_true, beq_iff_eq] at this
    exact ⟨this.1.1, this.1.2, this.2⟩
  obtain ⟨es, henc, hdec⟩ := Backend.encode_decode s (fun m hm => (hprops m hm).1)
  refine ⟨_, _, henc, ?_⟩
  rw [hdec]
  have hmap : (Backend.mfEntries s.message_stack).map MessageFormat.reparsed
      = Backend.mfEntries s.message_stack := by
    rw [List.map_congr_left
      (fun m hm => MessageFormat.reparsed_eq_self m (hprops m hm).2.1 (hprops m hm).2.2)]
    exact List.map_id _
  rw [hmap]
  cases s with
  | mk p vk pk ms =>
    have hms := wf_stack_shape ms hall
    rw [← hms]

/-- C1, as stated, is false: the claim's well-formedness condition only
requires `message_stack` to contain `MessageFormat` values, but a
message with a nonempty `sender_username` does not survive the round
trip (`to_dict` never serializes that field). -/
theorem C1_roundtrip_counterexample :
    (Backend.encode exC1bad).bind (fun p => Backend.decode p.2) ≠ .ok exC1bad := by
  decide

theorem C1_roundtrip_witness :
    exC1good.message_stack.all wellFormedEntry = true ∧
      ∃ s1 w, Backend.encode exC1good = .ok (s1, w) ∧ Backend.decode w = .ok exC1good :=
  ⟨by decide, C1_state_roundtrip exC1good (by decide)⟩

theorem rstripZero_append_replicate (b : List Nat) (k : Nat) :
    Database.rstripZero (b ++ List.replicate k 0) = Database.rstripZero b := by
  unfold Database.rstripZero
  rw [List.reverse_append, List.reverse_replicate, List.dropWhile_append]
  have hrep : (List.replicate k 0).dropWhile (fun x => decide (x = 0)) = ([] : List Nat) := by
    induction k with
    | zero => rfl
    | succ n ih => rw [List.replicate_succ, List.dropWhile_cons, if_pos (by simp)]; exact ih
  simp [hrep]

theorem rstripZero_eq_self (b : List Nat) (hb : b.getLast? ≠ some 0) :
    Database.rstripZero b = b := by
  unfold Database.rstripZero
  cases hr : b.reverse with
  | nil => simp [List.reverse_eq_nil_iff.mp hr]
  | cons a t =>
    have ha : a ≠ 0 := by
      intro h0
      apply hb
      rw [← List.head?_reverse, hr, h0]
      rfl
    rw [List.dropWhile_cons, if_neg (by simpa using ha), ← hr, List.reverse_reverse]

theorem query_data_payload_marker (tail : List Nat) :
    Database.query_data_payload (Database.fileSearchTerm ++ tail)
      = some (Database.rstripZero (tail.drop 8)) := by
  rw [Database.query_data_payload,
    if_pos (List.isPrefixOf_iff_prefix.mpr (List.prefix_append _ _)),
    List.drop_append 8]

/-- C2.  For every byte string that does not end in a zero byte,
pixel-decoding the image produced by pixel-encoding it (marker plus
8-byte nonce prepended, zero-padded to the near-square RGB raster)
returns exactly the original bytes. -/
theorem C2_pixel_roundtrip (nonce b : List Nat) (hn : nonce.length = 8)
    (hb : b.getLast? ≠ some 0) :
    Database.query_data_payload (Database.base64_to_image nonce b) = some b := by
  simp only [Database.base64_to_image, Database.ljustZero]
  rw [List.append_assoc Database.fileSearchTerm nonce b,
    List.append_assoc Database.fileSearchTerm (nonce ++ b),
    List.append_assoc nonce b, query_data_payload_marker, ← hn,
    List.drop_left nonce, rstripZero_append_replicate, rstripZero_eq_self b hb]

theorem C2_pixel_roundtrip_witness :
    (List.replicate 8 7 : List Nat).length = 8 ∧
      ([1, 2, 3] : List Nat).getLast? ≠ some 0 ∧
      Database.query_data_payload
        (Database.base64_to_image (List.replicate 8 7) [1, 2, 3]) = some [1, 2, 3] :=
  ⟨by decide, by decide,
    C2_pixel_roundtrip (List.replicate 8 7) [1, 2, 3] (by decide) (by decide)⟩

/-- C4.  For every message and every two key-exchange identities
produced by `generate_encryption_key_pair`, sealing with
(sender private key, recipient public key) and opening with (recipient
private key, sender public key) returns the message, while opening the
same ciphertext with a private key matching neither box participant
fails with the decryption failure (`nacl.exceptions.CryptoError`, the
spec's `DecryptionFailed`). -/
theorem C4_box_roundtrip (sa sb sc : Nat) (msg : PStr)
    (_hca : sc ≠ sa) (hcb : sc ≠ sb) :
    ∃ ct : PStr,
      Cryptography.encrypt_message msg (Cryptography.generate_encryption_key_pair sa).1
        (Cryptography.generate_encryption_key_pair sb).2 = .ok ct ∧
      Cryptography.decrypt_message ct (Cryptography.generate_encryption_key_pair sb).1
        (Cryptography.generate_encryption_key_pair sa).2 = .ok msg ∧
      Cryptography.decrypt_message ct (Cryptography.generate_encryption_key_pair sc).1
        (Cryptography.generate_encryption_key_pair sa).2 = .error .cryptoError := by
  refine ⟨.sealed ((sa + 1) * (sb + 1)) msg, rfl, ?_, ?_⟩
  · simp [Cryptography.decrypt_message, Cryptography.generate_encryption_key_pair,
      Cryptography.boxSharedKey, Nat.mul_comm]
  · have hne : (sa + 1) * (sb + 1) ≠ Cryptography.boxSharedKey (sc + 1) (sa + 1) := by
      simp only [Cryptography.boxSharedKey]
      intro h
      apply hcb
      rw [Nat.mul_comm (sc + 1) (sa + 1)] at h
      have := Nat.eq_of_mul_eq_mul_left (Nat.succ_pos sa) h
      omega
    simp [Cryptography.decrypt_message, Cryptography.generate_encryption_key_pair, hne]

theorem C4_box_roundtrip_witness :
    (2 ≠ 0) ∧ (2 ≠ 1) ∧
      (∃ ct : PStr,
        Cryptography.encrypt_message (.raw "m") (Cryptography.generate_encryption_key_pair 0).1
          (Cryptography.generate_encryption_key_pair 1).2 = .ok ct ∧
        Cryptography.decrypt_message ct (Cryptography.generate_encryption_key_pair 1).1
          (Cryptography.generate_encryption_key_pair 0).2 = .ok (.raw "m") ∧
        Cryptography.decrypt_message ct (Cryptography.generate_encryption_key_pair 2).1
          (Cryptography.generate_encryption_key_pair 0).2 = .error .cryptoError) :=
  ⟨by decide, by decide, C4_box_roundtrip 0 1 2 (.raw "m") (by decide) (by decide)⟩

/-- C5.  `send_public_message` on a message missing its `signing_key`
(or `sender_id`, `event_type`, `content`) raises `InvalidDataError`
("MessageFormat is not complete" — the spec's `IncompleteMessage`)
before issuing any network call, for every stored state, so the stored
state is unchanged. -/
theorem C5_incomplete_no_network (stored : Wire) (m : MessageFormat)
    (h : m.sender_id.isTruthy = false ∨ m.event_type = none
      ∨ m.content.isTruthy = false ∨ m.signing_key.isTruthy = false) :
    Backend.send_public_message stored m = (.error .invalidDataError, []) := by
  have hc : Backend.publicComplete m = false := by
    rcases h with h | h | h | h <;> simp [Backend.publicComplete, h]
  simp [Backend.send_public_message, hc]

theorem C5_incomplete_no_network_witness :
    exC5msg.signing_key.isTruthy = false ∧
      Backend.send_public_message Wire.empty exC5msg = (.error .invalidDataError, []) :=
  ⟨by decide,
    C5_incomplete_no_network Wire.empty exC5msg (Or.inr (Or.inr (Or.inr (by decide))))⟩

/-- C9.  One iteration of the reconciliation merge (public or private
branch) leaves the local message list unchanged when some local entry
already carries the incoming message's (sender, timestamp) pair, so the
message is not duplicated. -/
theorem C9_no_duplicate (selfUid : PStr) (msgs : List FMessage)
    (m : MessageFormat) (fm : FMessage)
    (h1 : ∃ loc ∈ msgs, loc.timestamp = m.timestamp ∧ loc.user_id = m.sender_id)
    (h2 : ∃ loc ∈ msgs, loc.timestamp = fm.timestamp ∧ loc.user_id = fm.user_id) :
    ChatState.checkPublicOne selfUid msgs m = msgs
      ∧ ChatState.checkPrivateOne msgs fm = msgs := by
  have e1 : ChatState.messageExists msgs m.timestamp m.sender_id = true := by
    obtain ⟨loc, hmem, ht, hu⟩ := h1
    exact List.any_eq_true.mpr ⟨loc, hmem, by simp [ht, hu]⟩
  have e2 : ChatState.messageExists msgs fm.timestamp fm.user_id = true := by
    obtain ⟨loc, hmem, ht, hu⟩ := h2
    exact List.any_eq_true.mpr ⟨loc, hmem, by simp [ht, hu]⟩
  constructor
  · simp [ChatState.checkPublicOne, e1]
  · simp [ChatState.checkPrivateOne, e2]

theorem C9_no_duplicate_witness :
    (∃ loc ∈ exC9local, loc.timestamp = exC9incoming.timestamp
        ∧ loc.user_id = exC9incoming.sender_id) ∧
      (∃ loc ∈ exC9local, loc.timestamp = exC9fm.timestamp
        ∧ loc.user_id = exC9fm.user_id) ∧
      (ChatState.checkPublicOne (.raw "u") exC9local exC9incoming = exC9local
        ∧ ChatState.checkPrivateOne exC9local exC9fm = exC9local) :=
  ⟨by decide, by decide,
    C9_no_duplicate (.raw "u") exC9local exC9incoming exC9fm (by decide) (by decide)⟩

/-- C10.  `Backend.encode` mutates its argument, replacing the message
stack by the JSON strings of its `MessageFormat` entries while leaving
the three key maps untouched; a second `encode` of the same (mutated)
object therefore produces a wire blob whose `message_stack` is empty,
with the key maps still intact. -/
theorem C10_encode_mutation (u : UploadStack) (es : List EntryStr)
    (h : mapComp MessageFormat.to_json (Backend.mfEntries u.message_stack) = .ok es) :
    Backend.encode u = .ok ({ u with message_stack := es.map StackEntry.str },
        .blob
          { profile_image_stack := u.profile_image_stack
            verify_keys_stack := u.verify_keys_stack
            public_keys_stack := u.public_keys_stack
            message_stack := es.map JEntry.estr }) ∧
      Backend.encode { u with message_stack := es.map StackEntry.str }
        = .ok ({ u with message_stack := ([] : List StackEntry) },
          .blob
            { profile_image_stack := u.profile_image_stack
              verify_keys_stack := u.verify_keys_stack
              public_keys_stack := u.public_keys_stack
              message_stack := [] }) := by
  constructor
  · simp [Backend.encode, h]
  · have hempty : ∀ ts : List EntryStr, Backend.mfEntries (ts.map StackEntry.str) = [] := by
      intro ts
      induction ts with
      | nil => rfl
      | cons a t ih =>
        rw [List.map_cons]
        simp only [Backend.mfEntries, List.filterMap_cons] at *
        exact ih
    simp [Backend.encode, hempty es, mapComp]

theorem C10_encode_mutation_witness :
    mapComp MessageFormat.to_json (Backend.mfEntries exC10.message_stack)
        = .ok [exC10entry] ∧
      (Backend.encode exC10 = .ok ({ exC10 with message_stack := [.str exC10entry] },
          .blob
            { profile_image_stack := exC10.profile_image_stack
              verify_keys_stack := exC10.verify_keys_stack
              public_keys_stack := exC10.public_keys_stack
              message_stack := [.estr exC10entry] }) ∧
        Backend.encode { exC10 with message_stack := [.str exC10entry] }
          = .ok ({ exC10 with message_stack := ([] : List StackEntry) },
            .blob
              { profile_image_stack := exC10.profile_image_stack
                verify_keys_stack := exC10.verify_keys_stack
                public_keys_stack := exC10.public_keys_stack
                message_stack := [] })) :=
  ⟨by decide, C10_encode_mutation exC10 [exC10entry] (by decide)⟩

/-- C3 (evaluation at the failing input).  Reading private messages with
a stored entry whose ciphertext does not authenticate raises
`nacl.exceptions.CryptoError` out of `read_private_messages`: the
`except ValueError` in the loop does not catch it, because `CryptoError`
is not a `ValueError` subclass — the decryption failure is not dropped,
it propagates and fails the whole call. -/
theorem C3_read_private_propagates :
    Backend.read_private_messages exC3wire (.raw "u") (.keyStr 2)
      = .error .cryptoError := by
  rfl

/-- C6 is false as stated: a string entry of `message_stack` that cannot
be parsed (here the non-JSON text "not json") aborts the whole decode
with the parse error, even though a well-formed entry follows it. -/
theorem C6_drop_counterexample :
    Backend.decode exC6wire = .error .jsonDecodeError := by
  rfl

theorem mapComp_from_json_plain (q : PStr) :
    ∀ (l1 l2 : List EntryStr),
      ∃ e, mapComp MessageFormat.from_json (l1 ++ .plain q :: l2) = .error e := by
  intro l1
  induction l1 with
  | nil => exact fun l2 => ⟨.jsonDecodeError, by simp [mapComp, MessageFormat.from_json]⟩
  | cons a t ih =>
    intro l2
    cases hfa : MessageFormat.from_json a with
    | error e => exact ⟨e, by simp [mapComp, hfa]⟩
    | ok b =>
      obtain ⟨e, he⟩ := ih l2
      exact ⟨e, by simp [mapComp, hfa, he]⟩

/-- C6 (amended).  The state decoder drops only the non-string entries
of `message_stack` (the `isinstance(message, str)` filter); a string
entry on which `MessageFormat.from_json` fails makes the whole decode
fail with that parse error instead of being dropped. -/
theorem C6_amended_decode :
    (∀ (p vk pk : List (PStr × PStr)) (ms1 ms2 : List JEntry) (n : Int),
        Backend.decode (.blob ⟨p, vk, pk, ms1 ++ .jnum n :: ms2⟩)
          = Backend.decode (.blob ⟨p, vk, pk, ms1 ++ ms2⟩)) ∧
    (∀ (p vk pk : List (PStr × PStr)) (ms1 ms2 : List JEntry) (q : PStr),
        ∃ e, Backend.decode (.blob ⟨p, vk, pk, ms1 ++ .estr (.plain q) :: ms2⟩)
          = .error e) := by
  constructor
  · intro p vk pk ms1 ms2 n
    simp [Backend.decode, UploadStack.from_json, stringEntries,
      List.filterMap_append, List.filterMap_cons]
  · intro p vk pk ms1 ms2 q
    have hse : stringEntries (ms1 ++ .estr (.plain q) :: ms2)
        = stringEntries ms1 ++ .plain q :: stringEntries ms2 := by
      simp [stringEntries, List.filterMap_append, List.filterMap_cons]
    obtain ⟨e, he⟩ := mapComp_from_json_plain q (stringEntries ms1) (stringEntries ms2)
    exact ⟨e, by simp [Backend.decode, UploadStack.from_json, hse, he]⟩

theorem Backend.mfEntries_map_mf (ms : List MessageFormat) :
    Backend.mfEntries (ms.map StackEntry.mf) = ms := by
  induction ms with
  | nil => rfl
  | cons a t ih =>
    rw [List.map_cons]
    simp only [Backend.mfEntries, List.filterMap_cons] at *
    rw [ih]

theorem stringEntries_mem (ms : List JEntry) (e : EntryStr)
    (h : e ∈ stringEntries ms) : JEntry.estr e ∈ ms := by
  obtain ⟨a, ha, hfa⟩ := List.mem_filterMap.mp h
  cases a with
  | estr s =>
    simp only at hfa
    injection hfa with hse
    rw [← hse]
    exact ha
  | jnum n => simp at hfa

/-- Every message decoded from a stored wire has a genuine event type
(`from_json` always produces one). -/
theorem Backend.decode_ok_event (w : Wire) (q : UploadStack)
    (h : Backend.decode w = .ok q) :
    ∀ m ∈ Backend.mfEntries q.message_stack, m.event_type.isSome := by
  cases w with
  | empty =>
    simp only [Backend.decode] at h
    injection h with h
    rw [← h]
    intro m hm
    simp [Backend.mfEntries] at hm
  | blob v =>
    simp only [Backend.decode, UploadStack.from_json] at h
    cases hmc : mapComp MessageFormat.from_json (stringEntries v.message_stack) with
    | error e => rw [hmc] at h; exact absurd h (by simp)
    | ok msgs =>
      rw [hmc] at h
      injection h with h
      rw [← h]
      intro m hm
      rw [Backend.mfEntries_map_mf] at hm
      obtain ⟨e, _, hfe⟩ := mapComp_ok_mem MessageFormat.from_json _ msgs hmc m hm
      obtain ⟨j, _, _, _, hs⟩ := MessageFormat.from_json_fields e m hfe
      exact hs

theorem insertIfAbsent_isSome (mp : List (PStr × PStr)) (k v : PStr)
    (h : (mp.lookup k).isSome) : insertIfAbsent mp k v = mp := by
  simp [insertIfAbsent, h]

/-- C7.  Key registration is first-write-wins: for every stored state
and every user id already bound in the verify-key or public-key map,
`push_public_keys`, `send_public_message` and `send_private_message`
leave the existing binding unchanged in the state they upload — a later
attempt to register a different key under the same id is silently
ignored (the call still succeeds). -/
theorem C7_first_write_wins :
    (∀ (stored : Wire) (uid vk pk : PStr) (q : UploadStack),
      Backend.decode stored = .ok q →
        ∃ w1 q1, Backend.push_public_keys stored uid vk pk = (.ok w1, [.query, .upload]) ∧
          Backend.decode w1 = .ok q1 ∧
          (∀ v, q.verify_keys_stack.lookup uid = some v →
            q1.verify_keys_stack.lookup uid = some v) ∧
          (∀ v, q.public_keys_stack.lookup uid = some v →
            q1.public_keys_stack.lookup uid = some v)) ∧
    (∀ (stored : Wire) (m : MessageFormat) (w1 : Wire) (tr : List NetOp) (q : UploadStack)
        (v : PStr),
      Backend.send_public_message stored m = (.ok w1, tr) →
      Backend.decode stored = .ok q →
      q.verify_keys_stack.lookup m.sender_id = some v →
        ∃ q1, Backend.decode w1 = .ok q1 ∧
          q1.verify_keys_stack.lookup m.sender_id = some v ∧
          q1.public_keys_stack = q.public_keys_stack) ∧
    (∀ (stored : Wire) (m : MessageFormat) (w1 : Wire) (tr : List NetOp) (q : UploadStack)
        (v : PStr),
      Backend.send_private_message stored m = (.ok w1, tr) →
      Backend.decode stored = .ok q →
      q.public_keys_stack.lookup m.sender_id = some v →
        ∃ q1, Backend.decode w1 = .ok q1 ∧
          q1.public_keys_stack.lookup m.sender_id = some v ∧
          q1.verify_keys_stack = q.verify_keys_stack) := by
  refine ⟨?_, ?_, ?_⟩
  · intro stored uid vk pk q hdec
    obtain ⟨es, henc, hdecw⟩ := Backend.encode_decode
      { q with
        verify_keys_stack := insertIfAbsent q.verify_keys_stack uid vk
        public_keys_stack := insertIfAbsent q.public_keys_stack uid pk }
      (Backend.decode_ok_event stored q hdec)
    refine ⟨_, _, ?_, hdecw, ?_, ?_⟩
    · simp only [Backend.push_public_keys, hdec, henc]
    · intro v hv
      simp only [insertIfAbsent_isSome q.verify_keys_stack uid vk (by rw [hv]; rfl)]
      exact hv
    · intro v hv
      simp only [insertIfAbsent_isSome q.public_keys_stack uid pk (by rw [hv]; rfl)]
      exact hv
  · intro stored m w1 tr q v hsend hdec hlook
    cases hpc : Backend.publicComplete m with
    | false =>
      simp only [Backend.send_public_message, hpc, Bool.not_false, if_true] at hsend
      exact absurd hsend (by simp)
    | true =>
      cases hsig : Cryptography.sign_message m.content m.signing_key with
      | error e =>
        simp only [Backend.send_public_message, hpc, hdec, hsig, Bool.not_true,
          Bool.false_eq_true, if_false] at hsend
        exact absurd hsend (by simp)
      | ok signed =>
        have hsome : ∀ m' ∈ Backend.mfEntries (q.message_stack ++ [.mf
            { sender_id := m.sender_id
              event_type := m.event_type
              content := signed
              timestamp := m.timestamp
              extra_event_info :=
                { user_name := some m.sender_username
                  user_image := some m.sender_profile_image } }]), m'.event_type.isSome := by
          intro m' hm'
          simp only [Backend.mfEntries, List.filterMap_append] at hm'
          rcases List.mem_append.mp hm' with hm' | hm'
          · exact Backend.decode_ok_event stored q hdec m' hm'
          · simp only [List.filterMap_cons, List.filterMap_nil, List.mem_singleton] at hm'
            rw [hm']
            simp only [Backend.publicComplete, Bool.and_eq_true] at hpc
            exact hpc.1.1.2
        obtain ⟨es, henc, hdecw⟩ := Backend.encode_decode
          { q with
            verify_keys_stack := insertIfAbsent q.verify_keys_stack m.sender_id m.verify_key
            message_stack := q.message_stack ++ [.mf
              { sender_id := m.sender_id
                event_type := m.event_type
                content := signed
                timestamp := m.timestamp
                extra_event_info :=
                  { user_name := some m.sender_username
                    user_image := some m.sender_profile_image } }] } hsome
        simp only [Backend.send_public_message, hpc, hdec, hsig, henc, Bool.not_true,
          Bool.false_eq_true, if_false, Prod.mk.injEq, Except.ok.injEq] at hsend
        rw [← hsend.1]
        refine ⟨_, hdecw, ?_, rfl⟩
        simp only [insertIfAbsent_isSome q.verify_keys_stack m.sender_id m.verify_key
          (by rw [hlook]; rfl)]
        exact hlook
  · intro stored m w1 tr q v hsend hdec hlook
    cases hpc : Backend.privateComplete m with
    | false =>
      simp only [Backend.send_private_message, hpc, Bool.not_false, if_true] at hsend
      exact absurd hsend (by simp)
    | true =>
      cases hsig : Cryptography.encrypt_message m.content m.private_key m.receiver_public_key with
      | error e =>
        simp only [Backend.send_private_message, hpc, hdec, hsig, Bool.not_true,
          Bool.false_eq_true, if_false] at hsend
        exact absurd hsend (by simp)
      | ok encrypted =>
        have hsome : ∀ m' ∈ Backend.mfEntries (q.message_stack ++ [.mf
            { sender_id := m.sender_id
              receiver_id := m.receiver_id
              event_type := m.event_type
              content := encrypted
              timestamp := m.timestamp
              extra_event_info :=
                { user_name := some m.sender_username
                  user_image := some m.sender_profile_image } }]), m'.event_type.isSome := by
          intro m' hm'
          simp only [Backend.mfEntries, List.filterMap_append] at hm'
          rcases List.mem_append.mp hm' with hm' | hm'
          · exact Backend.decode_ok_event stored q hdec m' hm'
          · simp only [List.filterMap_cons, List.filterMap_nil, List.mem_singleton] at hm'
            rw [hm']
            simp only [Backend.privateComplete, Bool.and_eq_true] at hpc
            exact hpc.1.1.1.1.1.2
        obtain ⟨es, henc, hdecw⟩ := Backend.encode_decode
          { q with
            public_keys_stack := insertIfAbsent q.public_keys_stack m.sender_id m.own_public_key
            message_stack := q.message_stack ++ [.mf
              { sender_id := m.sender_id
                receiver_id := m.receiver_id
                event_type := m.event_type
                content := encrypted
                timestamp := m.timestamp
                extra_event_info :=
                  { user_name := some m.sender_username
                    user_image := some m.sender_profile_image } }] } hsome
        simp only [Backend.send_private_message, hpc, hdec, hsig, henc, Bool.not_true,
          Bool.false_eq_true, if_false, Prod.mk.injEq, Except.ok.injEq] at hsend
        rw [← hsend.1]
        refine ⟨_, hdecw, ?_, rfl⟩
        simp only [insertIfAbsent_isSome q.public_keys_stack m.sender_id m.own_public_key
          (by rw [hlook]; rfl)]
        exact hlook

theorem C7_first_write_wins_witness :
    Backend.decode exC7stored = .ok exC7q ∧
    Backend.send_public_message exC7stored exC7pubMsg = (.ok exC7pubWire, [.query, .upload]) ∧
    Backend.send_private_message exC7stored exC7privMsg = (.ok exC7privWire, [.query, .upload]) ∧
    exC7q.verify_keys_stack.lookup (.raw "u") = some (.keyStr 4) ∧
    exC7q.public_keys_stack.lookup (.raw "u") = some (.keyStr 5) ∧
    (∃ w1 q1, Backend.push_public_keys exC7stored (.raw "u") (.keyStr 7) (.keyStr 8)
        = (.ok w1, [.query, .upload]) ∧ Backend.decode w1 = .ok q1 ∧
        (∀ v, exC7q.verify_keys_stack.lookup (.raw "u") = some v →
          q1.verify_keys_stack.lookup (.raw "u") = some v) ∧
        (∀ v, exC7q.public_keys_stack.lookup (.raw "u") = some v →
          q1.public_keys_stack.lookup (.raw "u") = some v)) ∧
    (∃ q1, Backend.decode exC7pubWire = .ok q1 ∧
        q1.verify_keys_stack.lookup exC7pubMsg.sender_id = some (.keyStr 4) ∧
        q1.public_keys_stack = exC7q.public_keys_stack) ∧
    (∃ q1, Backend.decode exC7privWire = .ok q1 ∧
        q1.public_keys_stack.lookup exC7privMsg.sender_id = some (.keyStr 5) ∧
        q1.verify_keys_stack = exC7q.verify_keys_stack) :=
  ⟨by decide, by decide, by decide, by decide, by decide,
   C7_first_write_wins.1 exC7stored (.raw "u") (.keyStr 7) (.keyStr 8) exC7q (by decide),
   C7_first_write_wins.2.1 exC7stored exC7pubMsg exC7pubWire [.query, .upload] exC7q
     (.keyStr 4) (by decide) (by decide) (by decide),
   C7_first_write_wins.2.2 exC7stored exC7privMsg exC7privWire [.query, .upload] exC7q
     (.keyStr 5) (by decide) (by decide) (by decide)⟩

/-- Messages decoded from a secret-free wire have empty secret fields
(`from_json` copies the serialized header fields verbatim). -/
theorem Backend.decode_ok_secrets (w : Wire) (q : UploadStack)
    (hw : SecretFree w) (h : Backend.decode w = .ok q) :
    ∀ m ∈ Backend.mfEntries q.message_stack,
      m.signing_key = .raw "" ∧ m.private_key = .raw "" := by
  cases w with
  | empty =>
    simp only [Backend.decode] at h
    injection h with h
    rw [← h]
    intro m hm
    simp [Backend.mfEntries] at hm
  | blob v =>
    simp only [Backend.decode, UploadStack.from_json] at h
    cases hmc : mapComp MessageFormat.from_json (stringEntries v.message_stack) with
    | error e => rw [hmc] at h; exact absurd h (by simp)
    | ok msgs =>
      rw [hmc] at h
      injection h with h
      rw [← h]
      intro m hm
      rw [Backend.mfEntries_map_mf] at hm
      obtain ⟨e, hemem, hfe⟩ := mapComp_ok_mem MessageFormat.from_json _ msgs hmc m hm
      obtain ⟨j, hej, hsg, hpk, _⟩ := MessageFormat.from_json_fields e m hfe
      obtain ⟨hs1, hs2⟩ := hw v rfl j (by rw [← hej]; exact stringEntries_mem _ _ hemem)
      exact ⟨by rw [hsg, hs1], by rw [hpk, hs2]⟩

/-- Encoding a stack whose messages have empty secret fields produces a
secret-free wire (`to_dict` copies the fields verbatim). -/
theorem Backend.encode_ok_secretFree (u u1 : UploadStack) (w' : Wire)
    (henc : Backend.encode u = .ok (u1, w'))
    (h : ∀ m ∈ Backend.mfEntries u.message_stack,
      m.signing_key = .raw "" ∧ m.private_key = .raw "") :
    SecretFree w' := by
  simp only [Backend.encode] at henc
  cases hmc : mapComp MessageFormat.to_json (Backend.mfEntries u.message_stack) with
  | error e => rw [hmc] at henc; exact absurd henc (by simp)
  | ok es =>
    rw [hmc] at henc
    simp only [Except.ok.injEq, Prod.mk.injEq] at henc
    obtain ⟨_, hwv⟩ := henc
    intro v hv j hj
    rw [← hwv] at hv
    injection hv with hv
    rw [← hv] at hj
    obtain ⟨e, hemem, heq⟩ := List.mem_map.mp hj
    injection heq with heq
    obtain ⟨m, hmmem, htj⟩ := mapComp_ok_mem MessageFormat.to_json _ es hmc e hemem
    obtain ⟨j', hdump, hsg, hpk⟩ := MessageFormat.to_json_fields m e htj
    have hj' : j' = j := by
      rw [hdump] at heq
      injection heq
    obtain ⟨h1, h2⟩ := h m hmmem
    rw [← hj']
    exact ⟨by rw [hsg, h1], by rw [hpk, h2]⟩

theorem push_keys_secretFree (w w' : Wire) (uid vk pk : PStr) (tr : List NetOp)
    (hw : SecretFree w) (hop : Backend.push_public_keys w uid vk pk = (.ok w', tr)) :
    SecretFree w' := by
  cases hdec : Backend.decode w with
  | error e =>
    simp only [Backend.push_public_keys, hdec] at hop
    exact absurd hop (by simp)
  | ok q =>
    cases henc : Backend.encode
        { q with
          verify_keys_stack := insertIfAbsent q.verify_keys_stack uid vk
          public_keys_stack := insertIfAbsent q.public_keys_stack uid pk } with
    | error e =>
      simp only [Backend.push_public_keys, hdec, henc] at hop
      exact absurd hop (by simp)
    | ok p =>
      obtain ⟨u1, wenc⟩ := p
      simp only [Backend.push_public_keys, hdec, henc, Prod.mk.injEq, Except.ok.injEq] at hop
      have hsf := Backend.encode_ok_secretFree _ u1 wenc henc
        (fun m hm => Backend.decode_ok_secrets w q hw hdec m hm)
      rwa [hop.1] at hsf

theorem send_public_secretFree (w w' : Wire) (m : MessageFormat) (tr : List NetOp)
    (hw : SecretFree w) (hop : Backend.send_public_message w m = (.ok w', tr)) :
    SecretFree w' := by
  cases hpc : Backend.publicComplete m with
  | false =>
    simp only [Backend.send_public_message, hpc, Bool.not_false, if_true] at hop
    exact absurd hop (by simp)
  | true =>
    cases hdec : Backend.decode w with
    | error e =>
      simp only [Backend.send_public_message, hpc, hdec, Bool.not_true,
        Bool.false_eq_true, if_false] at hop
      exact absurd hop (by simp)
    | ok q =>
      cases hsig : Cryptography.sign_message m.content m.signing_key with
      | error e =>
        simp only [Backend.send_public_message, hpc, hdec, hsig, Bool.not_true,
          Bool.false_eq_true, if_false] at hop
        exact absurd hop (by simp)
      | ok signed =>
        cases henc : Backend.encode
            { q with
              verify_keys_stack := insertIfAbsent q.verify_keys_stack m.sender_id m.verify_key
              message_stack := q.message_stack ++ [.mf
                { sender_id := m.sender_id
                  event_type := m.event_type
                  content := signed
                  timestamp := m.timestamp
                  extra_event_info :=
                    { user_name := some m.sender_username
                      user_image := some m.sender_profile_image } }] } with
        | error e =>
          simp only [Backend.send_public_message, hpc, hdec, hsig, henc, Bool.not_true,
            Bool.false_eq_true, if_false] at hop
          exact absurd hop (by simp)
        | ok p =>
          obtain ⟨u1, wenc⟩ := p
          simp only [Backend.send_public_message, hpc, hdec, hsig, henc, Bool.not_true,
            Bool.false_eq_true, if_false, Prod.mk.injEq, Except.ok.injEq] at hop
          have hsecrets : ∀ m' ∈ Backend.mfEntries (q.message_stack ++ [.mf
              { sender_id := m.sender_id
                event_type := m.event_type
                content := signed
                timestamp := m.timestamp
                extra_event_info :=
                  { user_name := some m.sender_username
                    user_image := some m.sender_profile_image } }]),
              m'.signing_key = .raw "" ∧ m'.private_key = .raw "" := by
            intro m' hm'
            simp only [Backend.mfEntries, List.filterMap_append] at hm'
            rcases List.mem_append.mp hm' with hm' | hm'
            · exact Backend.decode_ok_secrets w q hw hdec m' hm'
            · simp only [List.filterMap_cons, List.filterMap_nil, List.mem_singleton] at hm'
              rw [hm']
              exact ⟨rfl, rfl⟩
          have hsf := Backend.encode_ok_secretFree _ u1 wenc henc hsecrets
          rwa [hop.1] at hsf

theorem send_private_secretFree (w w' : Wire) (m : MessageFormat) (tr : List NetOp)
    (hw : SecretFree w) (hop : Backend.send_private_message w m = (.ok w', tr)) :
    SecretFree w' := by
  cases hpc : Backend.privateComplete m with
  | false =>
    simp only [Backend.send_private_message, hpc, Bool.not_false, if_true] at hop
    exact absurd hop (by simp)
  | true =>
    cases hdec : Backend.decode w with
    | error e =>
      simp only [Backend.send_private_message, hpc, hdec, Bool.not_true,
        Bool.false_eq_true, if_false] at hop
      exact absurd hop (by simp)
    | ok q =>
      cases hsig : Cryptography.encrypt_message m.content m.private_key
          m.receiver_public_key with
      | error e =>
        simp only [Backend.send_private_message, hpc, hdec, hsig, Bool.not_true,
          Bool.false_eq_true, if_false] at hop
        exact absurd hop (by simp)
      | ok encrypted =>
        cases henc : Backend.encode
            { q with
              public_keys_stack := insertIfAbsent q.public_keys_stack m.sender_id m.own_public_key
              message_stack := q.message_stack ++ [.mf
                { sender_id := m.sender_id
                  receiver_id := m.receiver_id
                  event_type := m.event_type
                  content := encrypted
                  timestamp := m.timestamp
                  extra_event_info :=
                    { user_name := some m.sender_username
                      user_image := some m.sender_profile_image } }] } with
        | error e =>
          simp only [Backend.send_private_message, hpc, hdec, hsig, henc, Bool.not_true,
            Bool.false_eq_true, if_false] at hop
          exact absurd hop (by simp)
        | ok p =>
          obtain ⟨u1, wenc⟩ := p
          simp only [Backend.send_private_message, hpc, hdec, hsig, henc, Bool.not_true,
            Bool.false_eq_true, if_false, Prod.mk.injEq, Except.ok.injEq] at hop
          have hsecrets : ∀ m' ∈ Backend.mfEntries (q.message_stack ++ [.mf
              { sender_id := m.sender_id
                receiver_id := m.receiver_id
                event_type := m.event_type
                content := encrypted
                timestamp := m.timestamp
                extra_event_info :=
                  { user_name := some m.sender_username
                    user_image := some m.sender_profile_image } }]),
              m'.signing_key = .raw "" ∧ m'.private_key = .raw "" := by
            intro m' hm'
            simp only [Backend.mfEntries, List.filterMap_append] at hm'
            rcases List.mem_append.mp hm' with hm' | hm'
            · exact Backend.decode_ok_secrets w q hw hdec m' hm'
            · simp only [List.filterMap_cons, List.filterMap_nil, List.mem_singleton] at hm'
              rw [hm']
              exact ⟨rfl, rfl⟩
          have hsf := Backend.encode_ok_secretFree _ u1 wenc henc hsecrets
          rwa [hop.1] at hsf

/-- C8.  Secrets are never persisted: every stored state reachable from
the empty store by any sequence of `push_public_keys`,
`send_public_message` and `send_private_message` calls is secret-free —
the `signing_key` and `private_key` header fields of every persisted
message record are empty. -/
theorem C8_secrets_never_persisted (w : Wire) (hr : Reachable w) : SecretFree w := by
  induction hr with
  | init => intro v hv j hj; exact absurd hv (by simp)
  | stepKeys w w' uid vk pk tr hrw hop ih => exact push_keys_secretFree w w' uid vk pk tr ih hop
  | stepPub w w' m tr hrw hop ih => exact send_public_secretFree w w' m tr ih hop
  | stepPriv w w' m tr hrw hop ih => exact send_private_secretFree w w' m tr ih hop

theorem C8_secrets_never_persisted_witness : SecretFree exC8wire :=
  C8_secrets_never_persisted exC8wire
    (Reachable.stepPub .empty exC8wire exC8msg [.query, .upload] Reachable.init (by decide))
